import Mathlib

/-!
Verification development for the provider data-quality dashboard
(`src/app.py`).  The analytical core of the script is shallowly embedded
below: pandas DataFrames become lists of typed records, pandas column
operations become explicit list transforms, `thefuzz`/`rapidfuzz` string
scores become exact rational arithmetic, and dates become a concrete
year/month/day triple.  All definitions are executable; the theorems at
the end of the file settle the behavioural claims about the script.
-/

/-! ## Basic string helpers (Python string primitives used by the script) -/

/-- Characters treated as whitespace by Python's `str.strip` and by the
regex class `\s` (ASCII range). -/
def isPySpace (c : Char) : Bool :=
  c = ' ' || c = '\t' || c = '\n' || c = '\r' || c = '\x0b' || c = '\x0c'

/-- Python `str.strip()`: drop leading and trailing whitespace.  Used by the
pandas `.str.strip()` calls in `validate_licenses` and `find_duplicates`. -/
def pyStrip (s : String) : String :=
  ⟨((s.data.dropWhile isPySpace).reverse.dropWhile isPySpace).reverse⟩

/-- Python `str.lower()` restricted to ASCII letters, matching the data the
script handles; used by `.str.lower()` in the source. -/
def pyLower (s : String) : String :=
  ⟨s.data.map Char.toLower⟩

/-- Keep the first occurrence of every element, dropping later duplicates;
`seen` accumulates the elements already emitted.  This is the behaviour of
`DataFrame.drop_duplicates` (keep = "first") on the projected rows. -/
def dedupFirstAux [DecidableEq α] : List α → List α → List α
  | [], _ => []
  | a :: as, seen =>
    if a ∈ seen then dedupFirstAux as seen
    else a :: dedupFirstAux as (a :: seen)

/-- Entry point for first-occurrence deduplication. -/
def dedupFirst [DecidableEq α] (l : List α) : List α :=
  dedupFirstAux l []

/-- Insert an element into a list sorted by the strict comparator `lt`,
after every element not greater than it (stable insertion). -/
def insertOrd (lt : α → α → Bool) (a : α) : List α → List α
  | [] => [a]
  | b :: bs => if lt b a then b :: insertOrd lt a bs else a :: b :: bs

/-- Stable insertion sort by a strict comparator; models Python's sorting
of group keys (`DataFrame.groupby` sorts the distinct keys) and of token
lists (`sorted`). -/
def insertionSort (lt : α → α → Bool) : List α → List α
  | [] => []
  | a :: as => insertOrd lt a (insertionSort lt as)

/-- Code-point lexicographic comparison of character lists, as Python
compares strings. -/
def charListLt : List Char → List Char → Bool
  | [], [] => false
  | [], _ :: _ => true
  | _ :: _, [] => false
  | a :: as, b :: bs =>
    if a.val < b.val then true
    else if b.val < a.val then false
    else charListLt as bs

/-- Python string `<`. -/
def strLtB (a b : String) : Bool :=
  charListLt a.data b.data

/-- Python tuple comparison on (string, string) pairs, used to order the
`groupby` keys (normalized last name, primary specialty). -/
def keyLtB (a b : String × String) : Bool :=
  strLtB a.1 b.1 || (a.1 == b.1 && strLtB a.2 b.2)

/-! ## Record model

One roster row (`provider_roster_with_errors.csv`) with the fields the
analytical functions read, and one state-registry row with the fields
`validate_licenses` projects (`license_number`, `status`,
`expiration_date`).  Nullable CSV cells are `Option`s (pandas `NaN`). -/

structure Provider where
  provider_id : String
  full_name : String
  last_name : String
  primary_specialty : String
  practice_phone : Option String
  npi : Option String
  license_number : String
  license_state : String
deriving DecidableEq, Repr

instance : Inhabited Provider :=
  ⟨⟨"", "", "", "", none, none, "", ""⟩⟩

structure RegRow where
  license_number : String
  status : Option String
  expiration_date : Option String
deriving DecidableEq, Repr

/-! ## Dates

`pd.to_datetime(..., errors="coerce").dt.date` turns each registry
expiration string into a calendar date, or `NaT` (here `none`) when the
string is missing or unparseable.  The model implements the ISO
`YYYY-MM-DD` path of the pandas parser, with calendar validity checks;
dates compare chronologically, i.e. lexicographically on
(year, month, day). -/

structure PyDate where
  year : Nat
  month : Nat
  day : Nat
deriving DecidableEq, Repr

/-- Strict chronological comparison of dates (Python `date.__lt__`). -/
def PyDate.lt (a b : PyDate) : Bool :=
  a.year < b.year ||
    (a.year == b.year &&
      (a.month < b.month || (a.month == b.month && a.day < b.day)))

/-- Parse a decimal numeral; `none` on the empty string or a non-digit. -/
def parseNatDigits (cs : List Char) : Option Nat :=
  if cs ≠ [] && cs.all Char.isDigit then
    some (cs.foldl (fun n c => n * 10 + (c.toNat - '0'.toNat)) 0)
  else none

/-- Number of days in a month of the proleptic Gregorian calendar. -/
def daysInMonth (y m : Nat) : Nat :=
  if m = 2 then
    if y % 4 = 0 && (y % 100 ≠ 0 || y % 400 = 0) then 29 else 28
  else if m = 4 || m = 6 || m = 9 || m = 11 then 30
  else 31

/-- Split a character list at every occurrence of `sep`, keeping empty
pieces, as Python `str.split(sep)` does; `cur` accumulates the current
piece in reverse. -/
def splitOnCharAux (sep : Char) : List Char → List Char → List (List Char)
  | [], cur => [cur.reverse]
  | c :: cs, cur =>
    if c = sep then cur.reverse :: splitOnCharAux sep cs []
    else splitOnCharAux sep cs (c :: cur)

/-- Parse an ISO `YYYY-MM-DD` date string, validating the calendar; any
other shape yields `none`, the model of `pd.to_datetime` with
`errors="coerce"` producing `NaT` on an unparseable cell. -/
def parseDate (s : String) : Option PyDate :=
  match splitOnCharAux '-' s.data [] with
  | [ys, ms, ds] =>
    match parseNatDigits ys, parseNatDigits ms, parseNatDigits ds with
    | some y, some m, some d =>
      if 1 ≤ m && m ≤ 12 && 1 ≤ d && d ≤ daysInMonth y m then
        some ⟨y, m, d⟩
      else none
    | _, _, _ => none
  | _ => none

/-- The fixed reference date of the dashboard:
`HACKATHON_DATE = datetime(2025, 9, 7).date()`. -/
def HACKATHON_DATE : PyDate := ⟨2025, 9, 7⟩

/-! ## Phone format validator (`find_phone_number_formatting_issues`)

The source filters the roster by
`~ practice_phone_str.str.match(r'^\(?\d{3}\)?[-.\s]?\d{3}[-.\s]?\d{4}$')`
together with `practice_phone.notna()`.  The regex is implemented below as
a deterministic scanner: every optional class (`\(?`, `\)?`, `[-.\s]?`) is
disjoint from the digit class that follows it, so greedy consumption never
needs backtracking.  Python's `$` also matches just before a single
trailing newline. -/

def isSepChar (c : Char) : Bool :=
  c = '-' || c = '.' || isPySpace c

/-- Consume exactly `n` ASCII digits (`\d{n}`). -/
def takeDigits : Nat → List Char → Option (List Char)
  | 0, cs => some cs
  | _ + 1, [] => none
  | n + 1, c :: cs => if c.isDigit then takeDigits n cs else none

/-- Consume at most one character satisfying `p` (an optional regex atom). -/
def skipOpt (p : Char → Bool) : List Char → List Char
  | [] => []
  | c :: cs => if p c then cs else c :: cs

/-- Python `$`: end of string, or a single final newline. -/
def atPyEnd : List Char → Bool
  | [] => true
  | ['\n'] => true
  | _ => false

/-- Match of the full phone pattern
`^\(?\d{3}\)?[-.\s]?\d{3}[-.\s]?\d{4}$` against a string. -/
def phoneRegexMatch (s : String) : Bool :=
  match takeDigits 3 (skipOpt (· = '(') s.data) with
  | none => false
  | some cs1 =>
    match takeDigits 3 (skipOpt isSepChar (skipOpt (· = ')') cs1)) with
    | none => false
    | some cs2 =>
      match takeDigits 4 (skipOpt isSepChar cs2) with
      | none => false
      | some cs3 => atPyEnd cs3

/-- Python `str()` as applied by `astype(str)` to a nullable cell: a
missing value renders as the string `"nan"`. -/
def pyStrOfOpt : Option String → String
  | some s => s
  | none => "nan"

/-- Projection of a roster row onto the columns returned by
`find_phone_number_formatting_issues`. -/
structure PhoneIssueRow where
  provider_id : String
  full_name : String
  practice_phone : Option String
deriving DecidableEq, Repr

def phoneProj (r : Provider) : PhoneIssueRow :=
  ⟨r.provider_id, r.full_name, r.practice_phone⟩

/-- The phone validator: rows whose stringified phone does not match the
pattern and whose phone cell is non-null (source lines 170-179). -/
def find_phone_number_formatting_issues (roster : List Provider) : List PhoneIssueRow :=
  (roster.filter
    (fun r => !(phoneRegexMatch (pyStrOfOpt r.practice_phone)) && r.practice_phone.isSome)).map
    phoneProj

/-! ## Missing-NPI validator (`find_missing_npi`) -/

structure NpiRow where
  provider_id : String
  full_name : String
  primary_specialty : String
deriving DecidableEq, Repr

/-- Rows whose `npi` cell is null (source lines 49-55). -/
def find_missing_npi (roster : List Provider) : List NpiRow :=
  (roster.filter (fun r => r.npi.isNone)).map
    (fun r => ⟨r.provider_id, r.full_name, r.primary_specialty⟩)

/-! ## License cross-referencer (`validate_licenses`)

The source strips the license numbers on both sides, left-merges the CA
and NY slices of the roster against the matching registry, concatenates,
parses the registry expiration date with `errors="coerce"`, masks rows
that are expired by date or by status, projects the display columns and
drops duplicate rows. -/

/-- One row of the concatenated merge result: the roster row together with
the registry `status` and raw `expiration_date` (both `none` for an
unmatched roster row, pandas `NaN`). -/
structure JoinedRow where
  roster : Provider
  status : Option String
  expiration_raw : Option String
deriving DecidableEq, Repr

/-- Left merge of the rows of one `license_state` against one registry
table on the stripped license number.  An unmatched roster row is kept
with null registry fields; a roster row with several registry matches
produces one output row per match, as `pd.merge(..., how="left")` does. -/
def mergeState (roster : List Provider) (reg : List RegRow) (state : String) :
    List JoinedRow :=
  (roster.filter (fun r => r.license_state == state)).flatMap (fun r =>
    let ms := reg.filter
      (fun g => pyStrip g.license_number == pyStrip r.license_number)
    if ms.isEmpty then [⟨r, none, none⟩]
    else ms.map (fun g => ⟨r, g.status, g.expiration_date⟩))

/-- `pd.concat([ca_merged, ny_merged])`: the union of the two per-state
joins.  Roster rows whose state is neither CA nor NY appear in neither
part. -/
def all_licensed (roster : List Provider) (ca ny : List RegRow) : List JoinedRow :=
  mergeState roster ca "CA" ++ mergeState roster ny "NY"

/-- The parsed registry expiration date of a joined row (`NaT` = `none`). -/
def parsedExp (row : JoinedRow) : Option PyDate :=
  row.expiration_raw.bind parseDate

/-- Comparison `expiration_date < HACKATHON_DATE` in pandas: `NaT`
compares false. -/
def dateEarlier : Option PyDate → PyDate → Bool
  | some d, ref => PyDate.lt d ref
  | none, _ => false

/-- Comparison `status.str.lower() == 'expired'` in pandas: a null status
compares false. -/
def statusExpired : Option String → Bool
  | some s => pyLower s == "expired"
  | none => false

/-- The expiry mask of the source (line 91). -/
def expiredMask (row : JoinedRow) : Bool :=
  dateEarlier (parsedExp row) HACKATHON_DATE || statusExpired row.status

/-- Projection of a masked row onto the displayed columns
(`provider_id`, `full_name`, `license_number`, `license_state`,
`State DB Status`, `State DB Expiration`). -/
structure ExpiredRow where
  provider_id : String
  full_name : String
  license_number : String
  license_state : String
  status : Option String
  expiration : Option PyDate
deriving DecidableEq, Repr

def expiredProj (row : JoinedRow) : ExpiredRow :=
  ⟨row.roster.provider_id, row.roster.full_name, row.roster.license_number,
    row.roster.license_state, row.status, parsedExp row⟩

/-- The expiry mask re-read from a projected row; it coincides with
`expiredMask` because the mask only inspects the parsed expiration date
and the status, both of which the projection keeps. -/
def projMask (e : ExpiredRow) : Bool :=
  dateEarlier e.expiration HACKATHON_DATE || statusExpired e.status

/-- `validate_licenses` (source lines 58-100): masked rows, projected and
deduplicated. -/
def validate_licenses (roster : List Provider) (ca ny : List RegRow) :
    List ExpiredRow :=
  dedupFirst (((all_licensed roster ca ny).filter expiredMask).map expiredProj)

/-! ## Token-set similarity (`thefuzz.fuzz.token_set_ratio`)

`thefuzz` delegates to `rapidfuzz`: the two strings are preprocessed
(ASCII filter, then `default_process`: non-alphanumeric characters become
spaces, lower case, strip), split into sorted sets of word tokens, and
scored.  With `A`, `B` the token sets: if one set's tokens are all in the
other (and the intersection is non-empty) the score is 100; otherwise the
score is the maximum of the plain Indel similarity of the joined
differences and of two renormalized scores comparing "intersection" with
"intersection + difference".  `rapidfuzz`'s base `ratio` is the normalized
Indel similarity `200 * lcs / (len1 + len2)`.  Floating point is modelled
by exact rationals; `thefuzz` finally rounds with Python's banker's
`round` to an integer score. -/

/-- Longest common subsequence length, one dynamic-programming row at a
time (`stepRow c b prevTail nPrev` extends the new row: `prevTail` is the
previous row aligned with `b`, `nPrev` the entry just computed). -/
def stepRow (c : Char) : List Char → List Nat → Nat → List Nat
  | [], _, _ => []
  | _, [], _ => []
  | bj :: bs, pj :: ps, nPrev =>
    let nj := if c = bj then pj + 1 else max nPrev (ps.headD 0)
    nj :: stepRow c bs ps nj

/-- Length of the longest common subsequence of two character lists. -/
def lcsLen (a b : List Char) : Nat :=
  (a.foldl (fun row c => 0 :: stepRow c b row 0)
    (List.replicate (b.length + 1) 0)).getLastD 0

/-- Normalized Indel similarity scaled to 0-100 (`rapidfuzz` `ratio`
without preprocessing): the Indel distance of two strings is
`len1 + len2 - 2 * lcs`, so the similarity `100 * (1 - dist / lensum)`
is exactly the fraction `200 * lcs / (len1 + len2)`; two empty strings
score 100.  Rational values are built with `Rat.divInt` throughout this
development so that every score evaluates by reduction. -/
def indelScoreQ (a b : String) : ℚ :=
  if a.length + b.length = 0 then Rat.divInt 100 1
  else Rat.divInt (200 * (lcsLen a.data b.data : ℤ)) (a.length + b.length : ℕ)

/-- `thefuzz.utils.ascii_only`: drop non-ASCII characters. -/
def asciiOnly (s : String) : String :=
  ⟨s.data.filter (fun c => c.val < 128)⟩

/-- `rapidfuzz.utils.default_process`: map non-alphanumeric characters to
spaces, lower-case, strip. -/
def defaultProcess (s : String) : String :=
  pyStrip ⟨s.data.map (fun c => if c.isAlphanum then c.toLower else ' ')⟩

/-- Split a list of characters into maximal space-free words; `cur`
accumulates the current word in reverse.  On a processed string the only
whitespace character left is the plain space, so this is Python
`str.split()`. -/
def wordsAux : List Char → List Char → List String
  | [], cur => if cur.isEmpty then [] else [⟨cur.reverse⟩]
  | c :: cs, cur =>
    if c = ' ' then
      if cur.isEmpty then wordsAux cs []
      else ⟨cur.reverse⟩ :: wordsAux cs []
    else wordsAux cs (c :: cur)

/-- Split a processed string into its whitespace-separated words. -/
def pyWords (s : String) : List String :=
  wordsAux s.data []

/-- Sorted set of word tokens of a processed string. -/
def tokenSet (s : String) : List String :=
  insertionSort strLtB (dedupFirst (pyWords s))

/-- Join tokens with single spaces, as `" ".join(...)`. -/
def joinTokens (ts : List String) : String :=
  String.intercalate " " ts

/-- Python `max` on two rationals, via the primitive comparison. -/
def maxQ (a b : ℚ) : ℚ :=
  if Rat.blt a b then b else a

/-- Core of `rapidfuzz.fuzz.token_set_ratio` on already-processed strings,
in exact rational arithmetic.  The two renormalized scores compare the
joined intersection with "intersection + difference": with
`lensum = 2 * sect_len + bonus + diff_len` and `dist = bonus + diff_len`
(`bonus` accounts for the joining space when the intersection is
non-empty), the similarity `100 * (1 - dist / lensum)` is exactly the
fraction `200 * sect_len / lensum`. -/
def tokenSetScoreQ (s1 s2 : String) : ℚ :=
  let ta := tokenSet s1
  let tb := tokenSet s2
  if ta.isEmpty || tb.isEmpty then Rat.divInt 0 1
  else
    let sect := ta.filter (fun t => t ∈ tb)
    let dab := ta.filter (fun t => t ∉ tb)
    let dba := tb.filter (fun t => t ∉ ta)
    if !sect.isEmpty && (dab.isEmpty || dba.isEmpty) then Rat.divInt 100 1
    else
      let abJ := joinTokens dab
      let baJ := joinTokens dba
      let sectLen : ℤ := ((joinTokens sect).length : ℤ)
      let bonus : ℤ := if sectLen = 0 then 0 else 1
      let base := indelScoreQ abJ baJ
      let sectAb := Rat.divInt (200 * sectLen)
        (2 * sectLen + bonus + (abJ.length : ℤ))
      let sectBa := Rat.divInt (200 * sectLen)
        (2 * sectLen + bonus + (baJ.length : ℤ))
      maxQ base (maxQ sectAb sectBa)

/-- Python `round`: nearest integer, ties to the even integer.  The
fractional part `q - floor q` is compared with one half by the equivalent
scaled comparison of `2 * q` with `2 * floor q + 1`. -/
def pyRound (q : ℚ) : ℤ :=
  let f := q.floor
  let twice := Rat.divInt (2 * q.num) (q.den : ℤ)
  let mid := Rat.divInt (2 * f + 1) 1
  if Rat.blt twice mid then f
  else if Rat.blt mid twice then f + 1
  else if f % 2 = 0 then f else f + 1

/-- `fuzz.token_set_ratio(s1, s2)` as called by the script: full
preprocessing, then the rational score rounded to an integer. -/
def fuzzTokenSetScore (s1 s2 : String) : ℤ :=
  pyRound (tokenSetScoreQ (defaultProcess (asciiOnly s1))
    (defaultProcess (asciiOnly s2)))

/-! ## Duplicate clusterer (`find_duplicates`)

The source normalizes `last_name` and `full_name` (lower-case, strip),
groups the roster by (normalized last name, primary specialty) - pandas
`groupby` sorts the distinct keys and keeps the original row order inside
each group - and runs a greedy single-linkage pass inside every group of
size above one: each yet-unclaimed row anchors a cluster, claims every
later unclaimed row whose name scores at or above the cutoff, and the
cluster is emitted only when it has at least two members. -/

/-- Normalization `str.lower().str.strip()` applied to the name columns. -/
def normLower (s : String) : String :=
  pyStrip (pyLower s)

/-- Blocking key of a roster row: (normalized last name, raw primary
specialty). -/
def dupKey (p : Provider) : String × String :=
  (normLower p.last_name, p.primary_specialty)

/-- Blocking key of the row at original position `i`. -/
def keyAt (df : List Provider) (i : Nat) : String × String :=
  dupKey (df.getD i default)

/-- Normalized full name (`full_name_norm`) of the row at position `i`. -/
def nameAt (df : List Provider) (i : Nat) : String :=
  normLower ((df.getD i default).full_name)

/-- Similarity score between the normalized full names of two rows, as the
inner loop computes it. -/
def scoreAt (df : List Provider) (i j : Nat) : ℤ :=
  fuzzTokenSetScore (nameAt df i) (nameAt df j)

/-- The sorted distinct blocking keys, in the order `groupby` iterates
them. -/
def blockKeys (df : List Provider) : List (String × String) :=
  insertionSort keyLtB (dedupFirst (df.map dupKey))

/-- The original row positions carrying blocking key `k`, in roster
order. -/
def blockOf (df : List Provider) (k : String × String) : List Nat :=
  (List.range df.length).filter (fun i => decide (keyAt df i = k))

/-- Positions claimed by the anchor `i` during one inner scan: the later
positions (`rest`) not yet claimed whose name scores at or above the
cutoff against the anchor's name.  Within one scan a newly claimed
position never affects another candidate of the same scan, since every
candidate is visited once, so the scan is a plain filter against the
`matched` set as it stood when the anchor was reached. -/
def claimedBy (score : Nat → Nat → ℤ) (cutoff : ℤ) (i : Nat)
    (matched rest : List Nat) : List Nat :=
  rest.filter (fun j => decide (j ∉ matched ∧ cutoff ≤ score i j))

/-- Greedy clustering pass over the positions of one block.  The first
argument list holds the candidate anchors still to visit, in block order;
`matched` holds the positions already claimed by an emitted cluster.  An
unclaimed anchor claims every later unclaimed position scoring at or above
the cutoff; clusters of size one are discarded without claiming their
anchor (source lines 122-145). -/
def greedyClusters (score : Nat → Nat → ℤ) (cutoff : ℤ) :
    List Nat → List Nat → List (List Nat)
  | [], _ => []
  | i :: rest, matched =>
    if i ∈ matched then greedyClusters score cutoff rest matched
    else if (claimedBy score cutoff i matched rest).isEmpty then
      greedyClusters score cutoff rest matched
    else
      (i :: claimedBy score cutoff i matched rest) ::
        greedyClusters score cutoff rest
          (matched ++ i :: claimedBy score cutoff i matched rest)

/-- Clusters contributed by the block with key `k`: blocks of size at most
one contribute nothing (`if len(group) > 1`). -/
def blockClusters (df : List Provider) (cutoff : ℤ) (k : String × String) :
    List (List Nat) :=
  if 1 < (blockOf df k).length then
    greedyClusters (scoreAt df) cutoff (blockOf df k) []
  else []

/-- `find_duplicates` (source lines 104-147): the clusters of every block,
concatenated in block-key order; each cluster is a list of original roster
positions.  The default cutoff is 90. -/
def find_duplicates (df : List Provider) (cutoff : ℤ := 90) : List (List Nat) :=
  (blockKeys df).flatMap (blockClusters df cutoff)

/-! ## Dashboard metrics (source lines 201-212) -/

/-- `num_duplicates = sum(len(cluster) for cluster in duplicate_clusters)`:
every cluster member counts individually. -/
def num_duplicates (clusters : List (List Nat)) : Nat :=
  (clusters.map List.length).sum

/-- `total_issues`: the simple sum of the four category counts. -/
def total_issues (roster : List Provider) (ca ny : List RegRow) : Nat :=
  (find_phone_number_formatting_issues roster).length +
    (find_missing_npi roster).length +
    (validate_licenses roster ca ny).length +
    num_duplicates (find_duplicates roster 90)

/-- `fields_checked = total_providers * 4`. -/
def fields_checked (roster : List Provider) : Nat :=
  roster.length * 4

/-- `quality_score = ((fields_checked - total_issues) / fields_checked) *
100 if fields_checked > 0 else 0`, with Python's float arithmetic modelled
by rationals. -/
def quality_score (roster : List Provider) (ca ny : List RegRow) : ℚ :=
  if 0 < fields_checked roster then
    ((fields_checked roster : ℚ) - (total_issues roster ca ny : ℚ)) /
      (fields_checked roster : ℚ) * 100
  else 0

/-! ## Top-level script behaviour on a missing roster

`load_data` catches a missing CSV, displays a configuration error and
returns `None` for every table.  The script then evaluates
`roster[roster['npi'].isna()]` (line 165) before the `roster is not None`
guard, so a `None` roster aborts the run with a `TypeError` and no
analysis executes; the guarded warning branch (line 333) is the designed
fallback.  The run is modelled as an `Except`: a present roster yields the
full issue report, an absent roster yields an error and no report. -/

structure IssueReport where
  phone_issues : List PhoneIssueRow
  missing_npi : List NpiRow
  expired_licenses : List ExpiredRow
  duplicate_clusters : List (List Nat)
deriving Repr

/-- Line 165 of the script: subscripting the roster before the guard;
raises on a `None` roster. -/
def unguardedMissingNpi (rosterOpt : Option (List Provider)) :
    Except String (List Provider) :=
  match rosterOpt with
  | none => Except.error "TypeError: 'NoneType' object is not subscriptable"
  | some roster => Except.ok (roster.filter (fun r => r.npi.isNone))

/-- The whole analysis pipeline as run by the script body: line 165 first,
then the `roster is not None` guard around the four analyses. -/
def run_pipeline (rosterOpt : Option (List Provider)) (ca ny : List RegRow) :
    Except String IssueReport :=
  match unguardedMissingNpi rosterOpt with
  | Except.error e => Except.error e
  | Except.ok _ =>
    match rosterOpt with
    | some roster =>
      Except.ok
        ⟨find_phone_number_formatting_issues roster,
          find_missing_npi roster,
          validate_licenses roster ca ny,
          find_duplicates roster 90⟩
    | none => Except.error "Data could not be loaded."

/-! ## Concrete data used by the witnesses and the counterexample -/

/-- Roster row with a California license number `"123"`. -/
def provCA : Provider :=
  { provider_id := "P10", full_name := "Jane Doe", last_name := "Doe",
    primary_specialty := "Oncology", practice_phone := some "(415) 555-1234",
    npi := some "1234567890", license_number := "123", license_state := "CA" }

/-- California registry row whose license number carries surrounding
whitespace and whose expiration date lies before the reference date. -/
def regCA : RegRow :=
  { license_number := " 123 ", status := some "Active",
    expiration_date := some "2020-01-01" }

/-- The merge result of `provCA` against `regCA`. -/
def joinedCA : JoinedRow := ⟨provCA, some "Active", some "2020-01-01"⟩

/-- Roster row with a California license number matching no registry row. -/
def provNoMatch : Provider :=
  { provCA with provider_id := "P11", license_number := "999" }

/-- Roster row with a malformed phone string. -/
def provBadPhone : Provider :=
  { provCA with provider_id := "P12", practice_phone := some "12345" }

/-- First of three same-block roster rows used to exhibit the greedy
separation: its name shares no token with `dupC`. -/
def dupA : Provider :=
  { provider_id := "P1", full_name := "aaaa bbbb", last_name := "zz",
    primary_specialty := "cardiology", practice_phone := none, npi := none,
    license_number := "", license_state := "" }

/-- Second row: its name contains all tokens of both `dupA` and `dupC`,
so it scores 100 against each. -/
def dupB : Provider := { dupA with provider_id := "P2", full_name := "aaaa bbbb cccc dddd" }

/-- Third row: scores 100 against `dupB` but low against `dupA`. -/
def dupC : Provider := { dupA with provider_id := "P3", full_name := "cccc dddd" }

/-- Three-row roster on which the greedy pass separates rows 1 and 2 even
though they score 100. -/
def dupDemo : List Provider := [dupA, dupB, dupC]

/-- Roster row "Robert J Smith". -/
def pairA : Provider :=
  { dupA with
    full_name := "Robert J Smith",
    last_name := "Smith",
    primary_specialty := "Cardiology" }

/-- Roster row "Smith, Robert J", same block as `pairA`. -/
def pairB : Provider := { pairA with provider_id := "P2", full_name := "Smith, Robert J" }

/-- Two-row roster realizing the specification's deduplication example. -/
def dupPair : List Provider := [pairA, pairB]

/-! ## Helper lemmas: deduplication and sorting -/

theorem mem_dedupFirstAux [DecidableEq α] (x : α) :
    ∀ (l seen : List α), x ∈ dedupFirstAux l seen ↔ x ∈ l ∧ x ∉ seen
  | [], seen => by simp [dedupFirstAux]
  | a :: as, seen => by
    by_cases h : a ∈ seen
    · rw [dedupFirstAux, if_pos h, mem_dedupFirstAux x as seen]
      constructor
      · rintro ⟨hx, hs⟩
        exact ⟨List.mem_cons_of_mem a hx, hs⟩
      · rintro ⟨hx, hs⟩
        rcases List.mem_cons.mp hx with rfl | hx
        · exact absurd h hs
        · exact ⟨hx, hs⟩
    · rw [dedupFirstAux, if_neg h]
      constructor
      · intro hx
        rcases List.mem_cons.mp hx with rfl | hx
        · exact ⟨List.mem_cons_self _ _, h⟩
        · rcases (mem_dedupFirstAux x as (a :: seen)).mp hx with ⟨h1, h2⟩
          exact ⟨List.mem_cons_of_mem a h1,
            fun hs => h2 (List.mem_cons_of_mem a hs)⟩
      · rintro ⟨hx, hs⟩
        rcases List.mem_cons.mp hx with rfl | hx
        · exact List.mem_cons_self _ _
        · by_cases hxa : x = a
          · subst hxa; exact List.mem_cons_self _ _
          · exact List.mem_cons_of_mem a
              ((mem_dedupFirstAux x as (a :: seen)).mpr
                ⟨hx, by simp [List.mem_cons, hxa, hs]⟩)

theorem mem_dedupFirst [DecidableEq α] (x : α) (l : List α) :
    x ∈ dedupFirst l ↔ x ∈ l := by
  rw [dedupFirst, mem_dedupFirstAux]
  simp

theorem nodup_dedupFirstAux [DecidableEq α] :
    ∀ (l seen : List α), (dedupFirstAux l seen).Nodup
  | [], _ => List.nodup_nil
  | a :: as, seen => by
    by_cases h : a ∈ seen
    · rw [dedupFirstAux, if_pos h]
      exact nodup_dedupFirstAux as seen
    · rw [dedupFirstAux, if_neg h]
      refine List.nodup_cons.mpr ⟨fun hmem => ?_, nodup_dedupFirstAux as (a :: seen)⟩
      exact ((mem_dedupFirstAux a as (a :: seen)).mp hmem).2 (List.mem_cons_self _ _)

theorem nodup_dedupFirst [DecidableEq α] (l : List α) : (dedupFirst l).Nodup :=
  nodup_dedupFirstAux l []

theorem insertOrd_perm (lt : α → α → Bool) (a : α) :
    ∀ l : List α, List.Perm (insertOrd lt a l) (a :: l)
  | [] => List.Perm.refl _
  | b :: bs => by
    rw [insertOrd]
    by_cases h : lt b a
    · rw [if_pos h]
      exact ((insertOrd_perm lt a bs).cons b).trans (List.Perm.swap a b bs)
    · rw [if_neg h]

theorem insertionSort_perm (lt : α → α → Bool) :
    ∀ l : List α, List.Perm (insertionSort lt l) l
  | [] => List.Perm.refl _
  | a :: as =>
    (insertOrd_perm lt a (insertionSort lt as)).trans
      ((insertionSort_perm lt as).cons a)

theorem mem_insertionSort (lt : α → α → Bool) (x : α) (l : List α) :
    x ∈ insertionSort lt l ↔ x ∈ l :=
  (insertionSort_perm lt l).mem_iff

theorem nodup_insertionSort (lt : α → α → Bool) (l : List α) (h : l.Nodup) :
    (insertionSort lt l).Nodup :=
  ((insertionSort_perm lt l).symm.nodup h : _)

/-! ## Helper lemmas: the license cross-referencer -/

theorem mem_mergeState_info (roster : List Provider) (reg : List RegRow)
    (st : String) (jrow : JoinedRow) (h : jrow ∈ mergeState roster reg st) :
    jrow.roster ∈ roster ∧ jrow.roster.license_state = st := by
  rw [mergeState] at h
  rcases List.mem_flatMap.mp h with ⟨r, hr, hbody⟩
  rcases List.mem_filter.mp hr with ⟨hrr, hst⟩
  have hst2 : r.license_state = st := by simpa using hst
  by_cases hempty :
      (reg.filter
        (fun g => pyStrip g.license_number == pyStrip r.license_number)).isEmpty
  · rw [if_pos hempty] at hbody
    have : jrow = ⟨r, none, none⟩ := by simpa using hbody
    subst this
    exact ⟨hrr, hst2⟩
  · rw [if_neg hempty] at hbody
    rcases List.mem_map.mp hbody with ⟨g, _, hg2⟩
    subst hg2
    exact ⟨hrr, hst2⟩

theorem mergeState_mem_matched (roster : List Provider) (reg : List RegRow)
    (st : String) (r : Provider) (g : RegRow) (hr : r ∈ roster)
    (hst : r.license_state = st) (hg : g ∈ reg)
    (hnum : pyStrip g.license_number = pyStrip r.license_number) :
    (⟨r, g.status, g.expiration_date⟩ : JoinedRow) ∈ mergeState roster reg st := by
  rw [mergeState]
  refine List.mem_flatMap.mpr ⟨r, List.mem_filter.mpr ⟨hr, by simp [hst]⟩, ?_⟩
  have hgms : g ∈ reg.filter
      (fun g => pyStrip g.license_number == pyStrip r.license_number) :=
    List.mem_filter.mpr ⟨hg, by simp [hnum]⟩
  have hne : ¬ (reg.filter
      (fun g => pyStrip g.license_number == pyStrip r.license_number)).isEmpty := by
    simp only [List.isEmpty_iff]
    exact List.ne_nil_of_mem hgms
  rw [if_neg hne]
  exact List.mem_map.mpr ⟨g, hgms, rfl⟩

theorem mergeState_mem_unmatched (roster : List Provider) (reg : List RegRow)
    (st : String) (r : Provider) (hr : r ∈ roster) (hst : r.license_state = st)
    (hno : ∀ g ∈ reg, pyStrip g.license_number ≠ pyStrip r.license_number) :
    (⟨r, none, none⟩ : JoinedRow) ∈ mergeState roster reg st := by
  rw [mergeState]
  refine List.mem_flatMap.mpr ⟨r, List.mem_filter.mpr ⟨hr, by simp [hst]⟩, ?_⟩
  have hempty : (reg.filter
      (fun g => pyStrip g.license_number == pyStrip r.license_number)).isEmpty := by
    simp only [List.isEmpty_iff, List.filter_eq_nil_iff]
    intro g hg
    simpa using hno g hg
  rw [if_pos hempty]
  simp

theorem mem_validate_iff (roster : List Provider) (ca ny : List RegRow)
    (e : ExpiredRow) :
    e ∈ validate_licenses roster ca ny ↔
      ∃ row ∈ all_licensed roster ca ny, expiredMask row = true ∧ expiredProj row = e := by
  rw [validate_licenses, mem_dedupFirst]
  constructor
  · intro h
    rcases List.mem_map.mp h with ⟨row, hrow, hproj⟩
    rcases List.mem_filter.mp hrow with ⟨hmem, hmask⟩
    exact ⟨row, hmem, hmask, hproj⟩
  · rintro ⟨row, hmem, hmask, hproj⟩
    exact List.mem_map.mpr ⟨row, List.mem_filter.mpr ⟨hmem, hmask⟩, hproj⟩

theorem projMask_expiredProj (row : JoinedRow) :
    projMask (expiredProj row) = expiredMask row := rfl

theorem projMask_of_mem (roster : List Provider) (ca ny : List RegRow)
    (e : ExpiredRow) (h : e ∈ validate_licenses roster ca ny) :
    projMask e = true := by
  rcases (mem_validate_iff roster ca ny e).mp h with ⟨row, _, hmask, hproj⟩
  rw [← hproj, projMask_expiredProj]
  exact hmask

theorem expiredMask_iff (row : JoinedRow) :
    expiredMask row = true ↔
      ((∃ d, parsedExp row = some d ∧ PyDate.lt d HACKATHON_DATE = true) ∨
        (∃ s, row.status = some s ∧ pyLower s = "expired")) := by
  rw [expiredMask, Bool.or_eq_true]
  constructor
  · rintro (hd | hs)
    · left
      cases hp : parsedExp row with
      | none => rw [hp] at hd; exact absurd hd (by simp [dateEarlier])
      | some d => rw [hp] at hd; exact ⟨d, rfl, hd⟩
    · right
      cases hst : row.status with
      | none => rw [hst] at hs; exact absurd hs (by simp [statusExpired])
      | some s =>
        rw [hst] at hs
        exact ⟨s, rfl, by simpa [statusExpired] using hs⟩
  · rintro (⟨d, hd, hlt⟩ | ⟨s, hs, heq⟩)
    · left; rw [hd]; exact hlt
    · right; rw [hs]; simp [statusExpired, heq]

/-! ## Claim C1: classification of joined rows -/

/-- C1: a joined roster/registry row appears in the expired-license output
exactly when its parsed registry expiration date is strictly earlier than
the reference date or its registry status, lower-cased, equals "expired";
when the expiration date is missing or unparseable the classification is
decided by the status check alone, without raising. -/
theorem c1_license_classification (roster : List Provider) (ca ny : List RegRow)
    (row : JoinedRow) (h : row ∈ all_licensed roster ca ny) :
    (expiredProj row ∈ validate_licenses roster ca ny ↔
      ((∃ d, parsedExp row = some d ∧ PyDate.lt d HACKATHON_DATE = true) ∨
        (∃ s, row.status = some s ∧ pyLower s = "expired")))
    ∧ (parsedExp row = none →
        (expiredProj row ∈ validate_licenses roster ca ny ↔
          (∃ s, row.status = some s ∧ pyLower s = "expired"))) := by
  have hmain : expiredProj row ∈ validate_licenses roster ca ny ↔
      expiredMask row = true := by
    constructor
    · intro hmem
      have := projMask_of_mem roster ca ny (expiredProj row) hmem
      rwa [projMask_expiredProj] at this
    · intro hmask
      exact (mem_validate_iff roster ca ny (expiredProj row)).mpr
        ⟨row, h, hmask, rfl⟩
  constructor
  · exact hmain.trans (expiredMask_iff row)
  · intro hnone
    rw [hmain.trans (expiredMask_iff row)]
    constructor
    · rintro (⟨d, hd, _⟩ | hs)
      · rw [hnone] at hd; cases hd
      · exact hs
    · intro hs; exact Or.inr hs

/-- Witness for C1: the concrete joined row of `provCA` and `regCA` is a
member of the join result, and the classification equivalence holds for
it (the row is flagged by its pre-reference expiration date). -/
theorem c1_license_classification_witness :
    joinedCA ∈ all_licensed [provCA] [regCA] [] ∧
      (expiredProj joinedCA ∈ validate_licenses [provCA] [regCA] [] ↔
        ((∃ d, parsedExp joinedCA = some d ∧ PyDate.lt d HACKATHON_DATE = true) ∨
          (∃ s, joinedCA.status = some s ∧ pyLower s = "expired"))) :=
  ⟨by decide, (c1_license_classification [provCA] [regCA] [] joinedCA (by decide)).1⟩

/-! ## Claim C5: whitespace-insensitive license-number join -/

/-- C5: license numbers are compared after stripping surrounding
whitespace on both sides, so a CA roster row joins a CA registry row
whose stored number differs only by surrounding spaces, and when that
registry row's expiration date parses to a date before the reference
date the row appears in the invalid-license output. -/
theorem c5_normalized_join (roster : List Provider) (ca ny : List RegRow)
    (r : Provider) (g : RegRow) (hr : r ∈ roster)
    (hst : r.license_state = "CA") (hg : g ∈ ca)
    (hnum : pyStrip g.license_number = pyStrip r.license_number)
    (d : PyDate) (hd : g.expiration_date.bind parseDate = some d)
    (hlt : PyDate.lt d HACKATHON_DATE = true) :
    expiredProj ⟨r, g.status, g.expiration_date⟩ ∈
      validate_licenses roster ca ny := by
  have hjoin : (⟨r, g.status, g.expiration_date⟩ : JoinedRow) ∈
      all_licensed roster ca ny :=
    List.mem_append_left _ (mergeState_mem_matched roster ca "CA" r g hr hst hg hnum)
  have hmask : expiredMask ⟨r, g.status, g.expiration_date⟩ = true := by
    rw [expiredMask, Bool.or_eq_true]
    left
    have hpe : parsedExp ⟨r, g.status, g.expiration_date⟩ = some d := hd
    rw [hpe]
    exact hlt
  exact (mem_validate_iff roster ca ny _).mpr ⟨_, hjoin, hmask, rfl⟩

/-- Witness for C5: roster number `"123"` joins registry number
`" 123 "` whose expiration date 2020-01-01 precedes the reference date,
and the projected row is in the output. -/
theorem c5_normalized_join_witness :
    expiredProj ⟨provCA, regCA.status, regCA.expiration_date⟩ ∈
      validate_licenses [provCA] [regCA] [] :=
  c5_normalized_join [provCA] [regCA] [] provCA regCA (by decide) (by decide)
    (by decide) (by decide) ⟨2020, 1, 1⟩ (by decide) (by decide)

/-! ## Claim C6: unsupported jurisdictions are dropped -/

/-- C6: every row of the unioned join result stems from a roster record
whose `license_state` is one of the two supported jurisdictions, and
every row of the invalid-license output likewise carries state "CA" or
"NY"; a roster record with any other state therefore contributes to
neither, regardless of its license number or the registry contents. -/
theorem c6_unsupported_states_dropped (roster : List Provider)
    (ca ny : List RegRow) :
    (∀ row ∈ all_licensed roster ca ny,
      row.roster.license_state = "CA" ∨ row.roster.license_state = "NY")
    ∧ (∀ e ∈ validate_licenses roster ca ny,
      e.license_state = "CA" ∨ e.license_state = "NY") := by
  have hall : ∀ row ∈ all_licensed roster ca ny,
      row.roster.license_state = "CA" ∨ row.roster.license_state = "NY" := by
    intro row hrow
    rcases List.mem_append.mp hrow with hca | hny
    · exact Or.inl (mem_mergeState_info roster ca "CA" row hca).2
    · exact Or.inr (mem_mergeState_info roster ny "NY" row hny).2
  refine ⟨hall, fun e he => ?_⟩
  rcases (mem_validate_iff roster ca ny e).mp he with ⟨row, hrow, _, hproj⟩
  have : e.license_state = row.roster.license_state := by
    rw [← hproj]; rfl
  rw [this]
  exact hall row hrow

/-- Witness for C6: instantiated on the one-row roster, whose single
output row indeed carries state "CA". -/
theorem c6_unsupported_states_dropped_witness :
    expiredProj joinedCA ∈ validate_licenses [provCA] [regCA] [] ∧
      (expiredProj joinedCA).license_state = "CA" ∨
        (expiredProj joinedCA).license_state = "NY" :=
  Or.elim
    ((c6_unsupported_states_dropped [provCA] [regCA] []).2
      (expiredProj joinedCA) (by decide))
    (fun h => Or.inl ⟨by decide, h⟩) (fun h => Or.inr h)

/-! ## Claim C10: unmatched roster rows are kept but never flagged -/

/-- C10: a roster record with a supported state whose stripped license
number matches no registry row survives the left join as a row with null
registry status and null expiration date, and that row is never part of
the invalid-license output, since a null status is not "expired" and a
null date never compares earlier than the reference date. -/
theorem c10_unmatched_never_flagged (roster : List Provider)
    (ca ny : List RegRow) (r : Provider) (hr : r ∈ roster)
    (hcase :
      (r.license_state = "CA" ∧
        ∀ g ∈ ca, pyStrip g.license_number ≠ pyStrip r.license_number) ∨
      (r.license_state = "NY" ∧
        ∀ g ∈ ny, pyStrip g.license_number ≠ pyStrip r.license_number)) :
    (⟨r, none, none⟩ : JoinedRow) ∈ all_licensed roster ca ny ∧
      expiredProj ⟨r, none, none⟩ ∉ validate_licenses roster ca ny := by
  constructor
  · rcases hcase with ⟨hst, hno⟩ | ⟨hst, hno⟩
    · exact List.mem_append_left _
        (mergeState_mem_unmatched roster ca "CA" r hr hst hno)
    · exact List.mem_append_right _
        (mergeState_mem_unmatched roster ny "NY" r hr hst hno)
  · intro hmem
    have hmask := projMask_of_mem roster ca ny _ hmem
    rw [projMask_expiredProj] at hmask
    have : expiredMask ⟨r, none, none⟩ = false := by
      rw [expiredMask]
      rfl
    rw [this] at hmask
    cases hmask

/-- Witness for C10: the roster row with number `"999"` matches no
registry row; its null-joined row is in the union and its projection is
not in the output. -/
theorem c10_unmatched_never_flagged_witness :
    (⟨provNoMatch, none, none⟩ : JoinedRow) ∈
        all_licensed [provNoMatch] [regCA] [] ∧
      expiredProj ⟨provNoMatch, none, none⟩ ∉
        validate_licenses [provNoMatch] [regCA] [] :=
  c10_unmatched_never_flagged [provNoMatch] [regCA] [] provNoMatch (by decide)
    (Or.inl ⟨by decide, by decide⟩)

/-! ## Claim C2: the phone-format validator -/

/-- C2: a roster record's projection is in the phone-issue output exactly
when its phone value is present and its string form fails the canonical
pattern; records with an absent phone value are never included. -/
theorem c2_phone_validator (roster : List Provider) (r : Provider)
    (h : r ∈ roster) :
    phoneProj r ∈ find_phone_number_formatting_issues roster ↔
      ∃ s, r.practice_phone = some s ∧ phoneRegexMatch s = false := by
  rw [find_phone_number_formatting_issues]
  constructor
  · intro hmem
    rcases List.mem_map.mp hmem with ⟨q, hq, hproj⟩
    rcases List.mem_filter.mp hq with ⟨_, hpred⟩
    have hphone : q.practice_phone = r.practice_phone :=
      congrArg PhoneIssueRow.practice_phone hproj
    rw [Bool.and_eq_true, Bool.not_eq_true'] at hpred
    rcases hpred with ⟨hnm, hsome⟩
    rw [hphone] at hnm hsome
    cases hp : r.practice_phone with
    | none => rw [hp] at hsome; cases hsome
    | some s =>
      rw [hp] at hnm
      exact ⟨s, rfl, hnm⟩
  · rintro ⟨s, hs, hnm⟩
    refine List.mem_map.mpr ⟨r, List.mem_filter.mpr ⟨h, ?_⟩, rfl⟩
    rw [Bool.and_eq_true, Bool.not_eq_true']
    exact ⟨by rw [hs]; exact hnm, by rw [hs]; rfl⟩

/-- Witness for C2: the record with phone `"12345"` is in the output, and
its phone string fails the pattern. -/
theorem c2_phone_validator_witness :
    phoneProj provBadPhone ∈ find_phone_number_formatting_issues [provBadPhone] ∧
      (∃ s, provBadPhone.practice_phone = some s ∧ phoneRegexMatch s = false) :=
  ⟨(c2_phone_validator [provBadPhone] provBadPhone (by decide)).mpr
      ⟨"12345", by decide, by decide⟩,
    ⟨"12345", by decide, by decide⟩⟩

/-! ## Claim C7: aggregated counts and the quality score -/

/-- C7: the total issue count is the plain sum of the four category
counts, with every duplicate-cluster member counted individually, and the
quality score equals `(checked - total) / checked * 100` with
`checked = provider_count * 4`, degrading to 0 (not an error) on an empty
roster. -/
theorem c7_quality_metrics (roster : List Provider) (ca ny : List RegRow) :
    total_issues roster ca ny =
      (find_phone_number_formatting_issues roster).length +
        (find_missing_npi roster).length +
        (validate_licenses roster ca ny).length +
        ((find_duplicates roster 90).map List.length).sum
    ∧ (roster.length = 0 → quality_score roster ca ny = 0)
    ∧ (0 < roster.length →
        quality_score roster ca ny =
          (((roster.length * 4 : ℕ) : ℚ) - ((total_issues roster ca ny : ℕ) : ℚ)) /
            ((roster.length * 4 : ℕ) : ℚ) * 100) := by
  refine ⟨rfl, fun h0 => ?_, fun hpos => ?_⟩
  · rw [quality_score, fields_checked, h0]
    simp
  · rw [quality_score, fields_checked, if_pos (by positivity)]

/-- Witness for C7: on the empty roster the score is 0. -/
theorem c7_quality_metrics_witness :
    quality_score [] [] [] = 0 :=
  (c7_quality_metrics [] [] []).2.1 rfl

/-! ## Claim C8: a missing roster aborts the pipeline -/

/-- C8: with no roster the pipeline fails as a whole: the run produces an
error (the unguarded subscript of the `None` roster on line 165, after the
loader has already displayed its configuration error) and never a report,
partial or otherwise. -/
theorem c8_missing_roster_fatal (ca ny : List RegRow) :
    run_pipeline none ca ny =
      Except.error "TypeError: 'NoneType' object is not subscriptable" ∧
    ∀ rep : IssueReport, run_pipeline none ca ny ≠ Except.ok rep := by
  refine ⟨rfl, fun rep h => ?_⟩
  rw [show run_pipeline none ca ny =
    Except.error "TypeError: 'NoneType' object is not subscriptable" from rfl] at h
  cases h

/-- Witness for C8: concrete registry tables. -/
theorem c8_missing_roster_fatal_witness :
    run_pipeline none [regCA] [] =
      Except.error "TypeError: 'NoneType' object is not subscriptable" :=
  (c8_missing_roster_fatal [regCA] []).1

/-! ## Helper lemmas: the greedy clustering pass -/

theorem mem_claimedBy (score : Nat → Nat → ℤ) (cutoff : ℤ) (i x : Nat)
    (matched rest : List Nat) :
    x ∈ claimedBy score cutoff i matched rest ↔
      x ∈ rest ∧ x ∉ matched ∧ cutoff ≤ score i x := by
  simp [claimedBy, List.mem_filter, and_assoc]

theorem greedy_mem_info (score : Nat → Nat → ℤ) (cutoff : ℤ) :
    ∀ (l matched cl : List Nat), cl ∈ greedyClusters score cutoff l matched →
      ∀ x ∈ cl, x ∈ l ∧ x ∉ matched
  | [], matched, cl => by simp [greedyClusters]
  | i :: rest, matched, cl => by
    rw [greedyClusters]
    by_cases hmem : i ∈ matched
    · rw [if_pos hmem]
      intro hcl x hx
      have h := greedy_mem_info score cutoff rest matched cl hcl x hx
      exact ⟨List.mem_cons_of_mem _ h.1, h.2⟩
    · rw [if_neg hmem]
      by_cases hempty : (claimedBy score cutoff i matched rest).isEmpty
      · rw [if_pos hempty]
        intro hcl x hx
        have h := greedy_mem_info score cutoff rest matched cl hcl x hx
        exact ⟨List.mem_cons_of_mem _ h.1, h.2⟩
      · rw [if_neg hempty]
        intro hcl x hx
        rcases List.mem_cons.mp hcl with rfl | htail
        · rcases List.mem_cons.mp hx with rfl | hxc
          · exact ⟨List.mem_cons_self _ _, hmem⟩
          · rcases (mem_claimedBy score cutoff i x matched rest).mp hxc with
              ⟨h1, h2, _⟩
            exact ⟨List.mem_cons_of_mem _ h1, h2⟩
        · have h := greedy_mem_info score cutoff rest
            (matched ++ i :: claimedBy score cutoff i matched rest) cl htail x hx
          refine ⟨List.mem_cons_of_mem _ h.1, fun hxm => h.2 ?_⟩
          exact List.mem_append_left _ hxm

theorem greedy_pairwise (score : Nat → Nat → ℤ) (cutoff : ℤ) :
    ∀ (l matched : List Nat),
      (greedyClusters score cutoff l matched).Pairwise
        (fun a b => ∀ x ∈ a, x ∉ b)
  | [], matched => by simp [greedyClusters]
  | i :: rest, matched => by
    rw [greedyClusters]
    by_cases hmem : i ∈ matched
    · rw [if_pos hmem]
      exact greedy_pairwise score cutoff rest matched
    · rw [if_neg hmem]
      by_cases hempty : (claimedBy score cutoff i matched rest).isEmpty
      · rw [if_pos hempty]
        exact greedy_pairwise score cutoff rest matched
      · rw [if_neg hempty]
        refine List.pairwise_cons.mpr ⟨?_, greedy_pairwise score cutoff rest _⟩
        intro b hb x hxhead hxb
        have h := greedy_mem_info score cutoff rest
          (matched ++ i :: claimedBy score cutoff i matched rest) b hb x hxb
        exact h.2 (List.mem_append_right _ hxhead)

theorem greedy_two_le (score : Nat → Nat → ℤ) (cutoff : ℤ) :
    ∀ (l matched cl : List Nat), cl ∈ greedyClusters score cutoff l matched →
      2 ≤ cl.length
  | [], matched, cl => by simp [greedyClusters]
  | i :: rest, matched, cl => by
    rw [greedyClusters]
    by_cases hmem : i ∈ matched
    · rw [if_pos hmem]
      exact greedy_two_le score cutoff rest matched cl
    · rw [if_neg hmem]
      by_cases hempty : (claimedBy score cutoff i matched rest).isEmpty
      · rw [if_pos hempty]
        exact greedy_two_le score cutoff rest matched cl
      · rw [if_neg hempty]
        intro hcl
        rcases List.mem_cons.mp hcl with rfl | htail
        · have hne : claimedBy score cutoff i matched rest ≠ [] := by
            intro hnil
            rw [hnil] at hempty
            exact hempty rfl
          have hpos := List.length_pos.mpr hne
          simp only [List.length_cons]
          omega
        · exact greedy_two_le score cutoff rest _ cl htail

theorem greedy_sorted (score : Nat → Nat → ℤ) (cutoff : ℤ) :
    ∀ (l matched cl : List Nat), l.Pairwise (· < ·) →
      cl ∈ greedyClusters score cutoff l matched → cl.Pairwise (· < ·)
  | [], matched, cl, _ => by simp [greedyClusters]
  | i :: rest, matched, cl, hsort => by
    have hrest : rest.Pairwise (· < ·) := (List.pairwise_cons.mp hsort).2
    have hhead : ∀ x ∈ rest, i < x := (List.pairwise_cons.mp hsort).1
    rw [greedyClusters]
    by_cases hmem : i ∈ matched
    · rw [if_pos hmem]
      exact greedy_sorted score cutoff rest matched cl hrest
    · rw [if_neg hmem]
      by_cases hempty : (claimedBy score cutoff i matched rest).isEmpty
      · rw [if_pos hempty]
        exact greedy_sorted score cutoff rest matched cl hrest
      · rw [if_neg hempty]
        intro hcl
        rcases List.mem_cons.mp hcl with rfl | htail
        · refine List.pairwise_cons.mpr ⟨?_, ?_⟩
          · intro x hx
            exact hhead x ((mem_claimedBy score cutoff i x matched rest).mp hx).1
          · exact List.Pairwise.sublist (List.filter_sublist rest) hrest
        · exact greedy_sorted score cutoff rest _ cl hrest htail

theorem greedy_pair_eq (score : Nat → Nat → ℤ) (cutoff : ℤ) (i j : Nat) :
    greedyClusters score cutoff [i, j] [] =
      if cutoff ≤ score i j then [[i, j]] else [] := by
  by_cases h : cutoff ≤ score i j
  · rw [if_pos h]
    simp [greedyClusters, claimedBy, h]
  · rw [if_neg h]
    simp [greedyClusters, claimedBy, h]

/-! ## Helper lemmas: blocking -/

theorem mem_blockOf (df : List Provider) (k : String × String) (x : Nat) :
    x ∈ blockOf df k ↔ x < df.length ∧ keyAt df x = k := by
  simp [blockOf, List.mem_filter, List.mem_range]

theorem blockOf_sorted (df : List Provider) (k : String × String) :
    (blockOf df k).Pairwise (· < ·) :=
  List.Pairwise.sublist (List.filter_sublist _) (List.pairwise_lt_range df.length)

theorem mem_blockClusters_info (df : List Provider) (cutoff : ℤ)
    (k : String × String) (cl : List Nat) (h : cl ∈ blockClusters df cutoff k) :
    ∀ x ∈ cl, x < df.length ∧ keyAt df x = k := by
  rw [blockClusters] at h
  by_cases hg : 1 < (blockOf df k).length
  · rw [if_pos hg] at h
    intro x hx
    exact (mem_blockOf df k x).mp
      (greedy_mem_info (scoreAt df) cutoff (blockOf df k) [] cl h x hx).1
  · rw [if_neg hg] at h
    cases h

theorem blockClusters_pairwise (df : List Provider) (cutoff : ℤ)
    (k : String × String) :
    (blockClusters df cutoff k).Pairwise (fun a b => ∀ x ∈ a, x ∉ b) := by
  rw [blockClusters]
  by_cases hg : 1 < (blockOf df k).length
  · rw [if_pos hg]
    exact greedy_pairwise (scoreAt df) cutoff (blockOf df k) []
  · rw [if_neg hg]
    exact List.Pairwise.nil

theorem blockClusters_two_le (df : List Provider) (cutoff : ℤ)
    (k : String × String) (cl : List Nat) (h : cl ∈ blockClusters df cutoff k) :
    2 ≤ cl.length := by
  rw [blockClusters] at h
  by_cases hg : 1 < (blockOf df k).length
  · rw [if_pos hg] at h
    exact greedy_two_le (scoreAt df) cutoff (blockOf df k) [] cl h
  · rw [if_neg hg] at h
    cases h

theorem blockKeys_nodup (df : List Provider) : (blockKeys df).Nodup :=
  nodup_insertionSort keyLtB _ (nodup_dedupFirst _)

theorem mem_find_duplicates (df : List Provider) (cutoff : ℤ) (cl : List Nat) :
    cl ∈ find_duplicates df cutoff ↔
      ∃ k ∈ blockKeys df, cl ∈ blockClusters df cutoff k := by
  rw [find_duplicates]
  exact List.mem_flatMap

theorem keyAt_mem_blockKeys (df : List Provider) (i : Nat) (hi : i < df.length) :
    keyAt df i ∈ blockKeys df := by
  rw [blockKeys, mem_insertionSort, mem_dedupFirst]
  refine List.mem_map.mpr ⟨df.getD i default, ?_, rfl⟩
  rw [List.getD_eq_getElem?_getD, List.getElem?_eq_getElem hi]
  exact List.getElem_mem hi

theorem flatMap_clusters_pairwise (df : List Provider) (cutoff : ℤ) :
    ∀ ks : List (String × String), ks.Nodup →
      (ks.flatMap (blockClusters df cutoff)).Pairwise
        (fun a b => ∀ x ∈ a, x ∉ b)
  | [], _ => by simp
  | k :: ks, hnd => by
    rw [List.flatMap_cons, List.pairwise_append]
    have hkn : k ∉ ks := (List.nodup_cons.mp hnd).1
    refine ⟨blockClusters_pairwise df cutoff k,
      flatMap_clusters_pairwise df cutoff ks (List.nodup_cons.mp hnd).2,
      ?_⟩
    intro a ha b hb x hxa hxb
    have hka := (mem_blockClusters_info df cutoff k a ha x hxa).2
    rcases List.mem_flatMap.mp hb with ⟨k2, hk2, hbk2⟩
    have hkb := (mem_blockClusters_info df cutoff k2 b hbk2 x hxb).2
    rw [hka] at hkb
    rw [hkb] at hkn
    exact hkn hk2

/-- Lists sorted strictly whose members are exactly `{i, j}` with `i < j`
are the two-element list `[i, j]`. -/
theorem sorted_mem_two (i j : Nat) (hij : i < j) :
    ∀ l : List Nat, l.Pairwise (· < ·) →
      (∀ t, t ∈ l ↔ t = i ∨ t = j) → l = [i, j] := by
  intro l hs hmem
  cases l with
  | nil =>
    exact absurd ((hmem i).mpr (Or.inl rfl)) (List.not_mem_nil i)
  | cons a l1 =>
    have hlt : ∀ x ∈ l1, a < x := (List.pairwise_cons.mp hs).1
    have ha : a = i := by
      rcases (hmem a).mp (List.mem_cons_self _ _) with h | h
      · exact h
      · exfalso
        subst h
        rcases List.mem_cons.mp ((hmem i).mpr (Or.inl rfl)) with h2 | h2
        · omega
        · have := hlt i h2
          omega
    subst ha
    cases l1 with
    | nil =>
      exfalso
      rcases List.mem_cons.mp ((hmem j).mpr (Or.inr rfl)) with h2 | h2
      · omega
      · exact absurd h2 (List.not_mem_nil j)
    | cons b l2 =>
      have hab : a < b := hlt b (List.mem_cons_self _ _)
      have hb : b = j := by
        rcases (hmem b).mp (List.mem_cons_of_mem _ (List.mem_cons_self _ _)) with
          h | h
        · omega
        · exact h
      subst hb
      have hl2 : l2 = [] := by
        cases hl : l2 with
        | nil => rfl
        | cons c l3 =>
          exfalso
          have hc1 : c ∈ a :: b :: l2 := by
            rw [hl]
            exact List.mem_cons_of_mem _
              (List.mem_cons_of_mem _ (List.mem_cons_self _ _))
          have hbc : b < c := by
            have := (List.pairwise_cons.mp (List.pairwise_cons.mp hs).2).1
            exact this c (by rw [hl]; exact List.mem_cons_self _ _)
          have hac : a < c := hlt c (by rw [hl]; exact List.mem_cons_of_mem _ (List.mem_cons_self _ _))
          rcases (hmem c).mp hc1 with h | h <;> omega
      rw [hl2]

/-! ## Claim C4: clusters are disjoint and of size at least two -/

/-- C4: for every roster and cutoff, the returned clusters are pairwise
disjoint (no roster position occurs in two clusters) and every cluster
has at least two members; unclustered records are simply absent. -/
theorem c4_clusters_disjoint_two_le (df : List Provider) (cutoff : ℤ) :
    (find_duplicates df cutoff).Pairwise (fun a b => ∀ x ∈ a, x ∉ b) ∧
      ∀ cl ∈ find_duplicates df cutoff, 2 ≤ cl.length := by
  constructor
  · rw [find_duplicates]
    exact flatMap_clusters_pairwise df cutoff (blockKeys df) (blockKeys_nodup df)
  · intro cl hcl
    rcases (mem_find_duplicates df cutoff cl).mp hcl with ⟨k, _, hbc⟩
    exact blockClusters_two_le df cutoff k cl hbc

/-- Witness for C4: evaluated on the three-row demo roster. -/
theorem c4_clusters_disjoint_two_le_witness :
    (find_duplicates dupDemo 90).Pairwise (fun a b => ∀ x ∈ a, x ∉ b) ∧
      ∀ cl ∈ find_duplicates dupDemo 90, 2 ≤ cl.length :=
  c4_clusters_disjoint_two_le dupDemo 90

/-! ## Claim C9: determinism and order stability -/

/-- C9: the clusterer is a pure function (two runs on the same roster and
cutoff coincide), every block lists its candidates as an order-preserving
subsequence of the roster positions, and every emitted cluster is
strictly increasing in original roster position: iteration never resorts
the rows, so the output is reproducible for a given input ordering. -/
theorem c9_deterministic_stable_order (df : List Provider) (cutoff : ℤ) :
    find_duplicates df cutoff = find_duplicates df cutoff ∧
      (∀ k, (blockOf df k).Sublist (List.range df.length)) ∧
      ∀ cl ∈ find_duplicates df cutoff, cl.Pairwise (· < ·) := by
  refine ⟨rfl, fun k => List.filter_sublist _, fun cl hcl => ?_⟩
  rcases (mem_find_duplicates df cutoff cl).mp hcl with ⟨k, _, hbc⟩
  rw [blockClusters] at hbc
  by_cases hg : 1 < (blockOf df k).length
  · rw [if_pos hg] at hbc
    exact greedy_sorted (scoreAt df) cutoff (blockOf df k) [] cl
      (blockOf_sorted df k) hbc
  · rw [if_neg hg] at hbc
    cases hbc

/-- Witness for C9: evaluated on the three-row demo roster. -/
theorem c9_deterministic_stable_order_witness :
    find_duplicates dupDemo 90 = find_duplicates dupDemo 90 ∧
      (∀ k, (blockOf dupDemo k).Sublist (List.range dupDemo.length)) ∧
      ∀ cl ∈ find_duplicates dupDemo 90, cl.Pairwise (· < ·) :=
  c9_deterministic_stable_order dupDemo 90

/-! ## Claim C3: pairs scoring above the cutoff

As stated the claim fails: the greedy pass claims a record for the first
anchor scoring high enough against it, and a later record similar to the
claimed one (but not to its anchor) is left alone and dropped.  On
`dupDemo`, rows 1 and 2 share a block and score 100, yet row 1 is claimed
by anchor 0 and row 2 ends up in no cluster.  The amended claim restricts
the positive half to a pair alone in its block, which is the
specification's own worked example; the negative half (records in
different blocks never share a cluster) holds unconditionally. -/

/-- Counterexample to C3 as stated: in `dupDemo`, rows 1 and 2 have the
same blocking key and score 100 (at or above the cutoff 90), yet no
output cluster contains them both - the output is `[[0, 1]]`. -/
theorem c3_counterexample_greedy_split :
    keyAt dupDemo 1 = keyAt dupDemo 2 ∧
      (90 : ℤ) ≤ scoreAt dupDemo 1 2 ∧
      find_duplicates dupDemo 90 = [[0, 1]] ∧
      ∀ cl ∈ find_duplicates dupDemo 90, ¬(1 ∈ cl ∧ 2 ∈ cl) := by decide

/-- C3 (amended): two roster records that are the only members of their
block (same normalized last name and primary specialty, shared with no
third record) and whose normalized full names score at or above the
cutoff appear together in exactly one output cluster; and records of two
different blocks never appear in the same cluster. -/
theorem c3_pair_block_clustered (df : List Provider) (cutoff : ℤ) (i j : Nat)
    (hij : i < j) (hj : j < df.length) (hkey : keyAt df i = keyAt df j)
    (honly : ∀ t, t < df.length → keyAt df t = keyAt df i → t = i ∨ t = j)
    (hscore : cutoff ≤ scoreAt df i j) :
    (∃! cl, cl ∈ find_duplicates df cutoff ∧ i ∈ cl ∧ j ∈ cl) ∧
      ∀ cl ∈ find_duplicates df cutoff, ∀ a ∈ cl, ∀ b ∈ cl,
        keyAt df a = keyAt df b := by
  have hi : i < df.length := Nat.lt_trans hij hj
  have hblock : blockOf df (keyAt df i) = [i, j] := by
    refine sorted_mem_two i j hij (blockOf df (keyAt df i))
      (blockOf_sorted df (keyAt df i)) (fun t => ?_)
    rw [mem_blockOf]
    constructor
    · rintro ⟨h1, h2⟩
      exact honly t h1 h2
    · rintro (rfl | rfl)
      · exact ⟨hi, rfl⟩
      · exact ⟨hj, hkey.symm⟩
  have hbc : blockClusters df cutoff (keyAt df i) = [[i, j]] := by
    rw [blockClusters, hblock]
    rw [if_pos (by simp)]
    rw [greedy_pair_eq (scoreAt df) cutoff i j, if_pos hscore]
  have hmemfd : [i, j] ∈ find_duplicates df cutoff :=
    (mem_find_duplicates df cutoff [i, j]).mpr
      ⟨keyAt df i, keyAt_mem_blockKeys df i hi, by rw [hbc]; exact List.mem_cons_self _ _⟩
  constructor
  · refine ⟨[i, j], ⟨hmemfd, by simp, by simp⟩, ?_⟩
    rintro cl ⟨hcl, hicl, _⟩
    rcases (mem_find_duplicates df cutoff cl).mp hcl with ⟨k2, _, hclk⟩
    have hk2 : keyAt df i = k2 :=
      (mem_blockClusters_info df cutoff k2 cl hclk i hicl).2
    rw [← hk2, hbc] at hclk
    simpa using hclk
  · intro cl hcl a ha b hb
    rcases (mem_find_duplicates df cutoff cl).mp hcl with ⟨k2, _, hclk⟩
    rw [(mem_blockClusters_info df cutoff k2 cl hclk a ha).2,
      (mem_blockClusters_info df cutoff k2 cl hclk b hb).2]

/-- Witness for the amended C3: the specification's own example pair
"Robert J Smith" and "Smith, Robert J" (same last name and specialty,
alone in their block, scoring 100) lands together in exactly one
cluster. -/
theorem c3_pair_block_clustered_witness :
    ∃! cl, cl ∈ find_duplicates dupPair 90 ∧ 0 ∈ cl ∧ 1 ∈ cl :=
  (c3_pair_block_clustered dupPair 90 0 1 (by decide) (by decide) (by decide)
    (by decide) (by decide)).1
